import Mathlib

/-!
Shallow embedding of `backtesting-overnight.py`.

The program fetches a multi-ticker OHLC price table, computes per-ticker
cumulative return series for three strategies (`calculate_returns`), and
renders dollar-valued trajectories (`plot_investment_value`).  Prices are
embedded as rationals; a pandas `KeyError` on a missing column and the
`ValueError` raised for an unknown strategy are embedded with `Except`.
-/

/-- A multi-ticker price table, the embedding of the pandas DataFrame returned
by `yfinance.download`.  `dates` is the shared date index (trading days),
`tickers` the list of unique level-1 column labels in order
(`data.columns.get_level_values(1).unique()`), and `cols` the columns keyed by
(field, ticker); a pair absent from `cols` models a column that is missing from
the DataFrame, whose access raises `KeyError`. -/
structure PriceTable where
  dates : List ℕ
  tickers : List String
  cols : List ((String × String) × List ℚ)
deriving DecidableEq

/-- Column access `data[field, ticker]`; `none` models a `KeyError`. -/
def PriceTable.col (data : PriceTable) (field ticker : String) : Option (List ℚ) :=
  (data.cols.find? (fun p => p.1.1 == field && p.1.2 == ticker)).map (fun p => p.2)

/-- The two exception kinds that can escape the body of the per-ticker loop of
`calculate_returns`: `keyError` from a missing column (caught by the
`except KeyError` handler) and `valueError` from the `else` branch raising
`ValueError("Invalid strategy")` (not caught). -/
inductive CalcErr where
  | keyError
  | valueError
deriving DecidableEq

/-- Daily returns of one ticker, lines 18-27 of the source.
`open_to_close`: `data['Close', t] / data['Open', t] - 1` (element-wise over the
shared index).  `close_to_open`: `data['Open', t].shift(-1) / data['Close', t] - 1`
followed by `dropna()`, i.e. `Open(d+1)/Close(d) - 1` for every date but the
last.  `buy_and_hold`: `data['Adj Close', t].pct_change()` followed by
`dropna()`, i.e. `Adj(d)/Adj(d-1) - 1` for every date but the first.
Any other strategy raises `ValueError`. -/
def dailyReturns (data : PriceTable) (strategy ticker : String) : Except CalcErr (List ℚ) :=
  if strategy = "open_to_close" then
    match data.col "Close" ticker, data.col "Open" ticker with
    | some c, some o => .ok (List.zipWith (fun x y => x / y - 1) c o)
    | _, _ => .error .keyError
  else if strategy = "close_to_open" then
    match data.col "Open" ticker, data.col "Close" ticker with
    | some o, some c => .ok (List.zipWith (fun x y => x / y - 1) (o.drop 1) c)
    | _, _ => .error .keyError
  else if strategy = "buy_and_hold" then
    match data.col "Adj Close" ticker with
    | some a => .ok (List.zipWith (fun x y => x / y - 1) (a.drop 1) a)
    | none => .error .keyError
  else .error .valueError

/-- Running product with accumulator: the embedding of pandas `cumprod`. -/
def cumprodFrom (acc : ℚ) : List ℚ → List ℚ
  | [] => []
  | x :: xs => (acc * x) :: cumprodFrom (acc * x) xs

/-- Pandas `Series.cumprod()`. -/
def cumprod (xs : List ℚ) : List ℚ := cumprodFrom 1 xs

/-- Line 28 of the source: `(1 + daily_returns).cumprod()`. -/
def cumulativeReturns (daily : List ℚ) : List ℚ :=
  cumprod (daily.map (fun r => 1 + r))

/-- The per-ticker loop of `calculate_returns` (lines 16-32).  The accumulator
carries the columns assigned so far (`returns[ticker] = cumulative_returns`)
and the tickers skipped with a warning (`st.error(...)` inside
`except KeyError`).  A `ValueError` is not caught and aborts the loop. -/
def calcLoop (data : PriceTable) (strategy : String) :
    List String → List (String × List ℚ) × List String →
    Except CalcErr (List (String × List ℚ) × List String)
  | [], acc => .ok acc
  | t :: ts, acc =>
    match dailyReturns data strategy t with
    | .ok d => calcLoop data strategy ts (acc.1 ++ [(t, cumulativeReturns d)], acc.2)
    | .error .keyError => calcLoop data strategy ts (acc.1, acc.2 ++ [t])
    | .error .valueError => .error .valueError

/-- The result of one `calculate_returns` call: a DataFrame of per-ticker
cumulative return series (`cols`) over a date index (`index`), together with
the list of tickers for which a warning was shown. -/
structure ReturnsTable where
  index : List ℕ
  cols : List (String × List ℚ)
  warnings : List String
deriving DecidableEq

/-- The date index the surviving series of a strategy carry: `open_to_close`
keeps every date, `close_to_open` drops the last (its shifted Open is NaN and
is dropped by `dropna`), `buy_and_hold` drops the first (its `pct_change` is
NaN). -/
def stratIndex (dates : List ℕ) (strategy : String) : List ℕ :=
  if strategy = "close_to_open" then dates.dropLast
  else if strategy = "buy_and_hold" then dates.drop 1
  else dates

/-- Lines 13-33 of the source.  The index of the result DataFrame is set by the
first column assignment, hence it is empty when every ticker was skipped. -/
def calculate_returns (data : PriceTable) (strategy : String) :
    Except CalcErr ReturnsTable :=
  match calcLoop data strategy data.tickers ([], []) with
  | .error e => .error e
  | .ok (cols, ws) =>
    .ok { index := if cols.isEmpty then [] else stratIndex data.dates strategy
        , cols := cols
        , warnings := ws }

/-- Derived view: the cumulative return series a ticker contributes, `none`
when the ticker is skipped on a `KeyError`. -/
def tickerSeries (data : PriceTable) (strategy ticker : String) : Option (List ℚ) :=
  (dailyReturns data strategy ticker).toOption.map cumulativeReturns

/-- The exceptions the renderer can raise: `keyError` from looking a ticker of
the open-to-close table up in one of the other two tables, `indexError` from
`returns_open_to_close.index[0]` on an empty index. -/
inductive PlotErr where
  | keyError
  | indexError
deriving DecidableEq

/-- The observable description of the rendered figure: the per-ticker line
traces (name, y-values), the dashed reference line at the initial investment
(its two x endpoints and its y level), the log-scale flag, and, when log scale
is on, the pair of positive numbers whose `log10` the code passes to
`fig.update_yaxes(range=...)`. -/
structure Figure where
  traces : List (String × List ℚ)
  refLine : (ℕ × ℕ) × ℚ
  logScale : Bool
  yLogRangeArgs : Option (ℚ × ℚ)
deriving DecidableEq

/-- The ticker loop of `plot_investment_value` (lines 41-52): for each column
of the open-to-close table, look the ticker up in the other two tables
(`KeyError` if absent), multiply each series by the initial investment, add the
three traces, and extend `all_values` with the three dollar series. -/
def plotLoop (r_co r_bh : ReturnsTable) (init : ℚ) :
    List (String × List ℚ) → List (String × List ℚ) × List ℚ →
    Except PlotErr (List (String × List ℚ) × List ℚ)
  | [], acc => .ok acc
  | p :: ps, acc =>
    match r_co.cols.lookup p.1, r_bh.cols.lookup p.1 with
    | some sco, some sbh =>
      plotLoop r_co r_bh init ps
        (acc.1 ++ [(p.1 ++ " - Apertura a Cierre", p.2.map (fun v => v * init)),
                   (p.1 ++ " - Cierre a Apertura", sco.map (fun v => v * init)),
                   (p.1 ++ " - Comprar y Mantener", sbh.map (fun v => v * init))],
         acc.2 ++ p.2.map (fun v => v * init) ++ sco.map (fun v => v * init)
               ++ sbh.map (fun v => v * init))
    | _, _ => .error .keyError

/-- Maximum of a list, the embedding of `np.max` on a nonempty array (the
`[]` case is junk, never reached: `all_values` always holds the appended
initial investment when it is taken). -/
def listMax : List ℚ → ℚ
  | [] => 0
  | x :: xs => xs.foldl max x

/-- Line 68 of the source: `np.min(all_values[all_values > 0])` when some
value is positive, else the floor `0.1`. -/
def minPositive (l : List ℚ) : ℚ :=
  match l.filter (fun v => 0 < v) with
  | [] => 1/10
  | x :: xs => xs.foldl min x

/-- Lines 65-73 of the source: append the initial investment to `all_values`,
take `min_val` as the least positive value (`0.1` if none), `max_val` as the
maximum, pad by `0.1 * (max_val - min_val)`, and return the pair of numbers
whose `log10` becomes the y-axis range — with the code's floor: when
`min_val - range_padding` is not positive the lower number is `0.1`. -/
def yRangeArgs (vals : List ℚ) (init : ℚ) : ℚ × ℚ :=
  let all := vals ++ [init]
  let min_val := minPositive all
  let max_val := listMax all
  let range_padding := (1/10) * (max_val - min_val)
  (if 0 < min_val - range_padding then min_val - range_padding else 1/10,
   max_val + range_padding)

/-- Lines 35-75 of the source.  Runs the ticker loop, then reads
`returns_open_to_close.index[0]` and `index[-1]` for the reference line
(`IndexError` when the index is empty), and records the log-range arguments
when `log_scale` is set. -/
def plot_investment_value (r_oc r_co r_bh : ReturnsTable)
    (initial_investment : ℚ) (log_scale : Bool) : Except PlotErr Figure :=
  match plotLoop r_co r_bh initial_investment r_oc.cols ([], []) with
  | .error e => .error e
  | .ok (traces, vals) =>
    match r_oc.index.head?, r_oc.index.getLast? with
    | some x0, some xn =>
      .ok { traces := traces
          , refLine := ((x0, xn), initial_investment)
          , logScale := log_scale
          , yLogRangeArgs :=
              if log_scale then some (yRangeArgs vals initial_investment) else none }
    | _, _ => .error .indexError

/-- The y-axis range the code sets when log scale is on: `log10` of the two
recorded arguments. -/
noncomputable def yLogRange (fig : Figure) : Option (ℝ × ℝ) :=
  fig.yLogRangeArgs.map (fun p => (Real.logb 10 (p.1 : ℝ), Real.logb 10 (p.2 : ℝ)))

/-- Python `str.split(',')` on the character list of the input: splitting on
every comma, never returning an empty list (the whole string, possibly empty,
is the single piece when no comma occurs). -/
def splitComma : List Char → List (List Char)
  | [] => [[]]
  | ch :: cs =>
    match splitComma cs with
    | [] => [[]]
    | w :: ws => if ch = ',' then [] :: w :: ws else (ch :: w) :: ws

/-- Python whitespace test for the characters `strip()` removes (the ones that
can occur in a ticker text input). -/
def isSpaceChar (ch : Char) : Bool :=
  ch = ' ' || ch = '\t' || ch = '\n' || ch = '\r'

/-- Python `str.strip()`. -/
def stripChars (w : List Char) : List Char :=
  ((w.dropWhile isSpaceChar).reverse.dropWhile isSpaceChar).reverse

/-- Line 84-85 of the source: upper-case the raw input, split on commas, strip
each piece, keep the first five. -/
def parseTickers (input : List Char) : List (List Char) :=
  ((splitComma (input.map Char.toUpper)).map stripChars).take 5

/-- The guard `if not tickers` of `main` (line 90): `true` would show the
"enter at least one symbol" error and abort the run. -/
def mainRejects (input : List Char) : Bool :=
  (parseTickers input).isEmpty

/-- Derived view of the loop of `calculate_returns`: the columns it assigns,
in ticker order. -/
def strategyCols (data : PriceTable) (strategy : String) : List (String × List ℚ) :=
  data.tickers.filterMap (fun t => (tickerSeries data strategy t).map (fun v => (t, v)))

/-- Derived view of the loop of `calculate_returns`: the tickers skipped with
a warning. -/
def strategyWarnings (data : PriceTable) (strategy : String) : List String :=
  data.tickers.filter (fun t => (tickerSeries data strategy t).isNone)

/-- Derived view: the full `ReturnsTable` a successful `calculate_returns`
call produces for a recognized strategy. -/
def strategyTable (data : PriceTable) (strategy : String) : ReturnsTable :=
  { index := if (strategyCols data strategy).isEmpty then []
      else stratIndex data.dates strategy
  , cols := strategyCols data strategy
  , warnings := strategyWarnings data strategy }

/-- Concrete table of the spec's worked example: one ticker `X` over two
consecutive dates with Open = [10, 11] and Close = [10.5, 11.5]. -/
def dataC1 : PriceTable :=
  { dates := [0, 1], tickers := ["X"]
  , cols := [(("Open", "X"), [10, 11]), (("Close", "X"), [21/2, 23/2])] }

/-- Concrete table with a single usable date: Open = [10], Close = [10.5]. -/
def dataC3 : PriceTable :=
  { dates := [0], tickers := ["X"]
  , cols := [(("Open", "X"), [10]), (("Close", "X"), [21/2])] }

/-- Concrete table where ticker `A` lacks the `Adj Close` column while ticker
`B` is complete. -/
def data5 : PriceTable :=
  { dates := [0, 1], tickers := ["A", "B"]
  , cols := [(("Open", "A"), [1, 1]), (("Close", "A"), [1, 1]),
             (("Open", "B"), [1, 1]), (("Close", "B"), [1, 1]),
             (("Adj Close", "B"), [1, 1])] }

/-- The open-to-close result on `data5`. -/
def Roc5 : ReturnsTable :=
  { index := [0, 1], cols := [("A", [1, 1]), ("B", [1, 1])], warnings := [] }

/-- The close-to-open result on `data5`. -/
def Rco5 : ReturnsTable :=
  { index := [0], cols := [("A", [1]), ("B", [1])], warnings := [] }

/-- The buy-and-hold result on `data5`: `A` skipped with a warning. -/
def Rbh5 : ReturnsTable :=
  { index := [1], cols := [("B", [1])], warnings := ["A"] }

/-- Concrete table where ticker `A` lacks the `Open` column while ticker `B`
is complete. -/
def data5b : PriceTable :=
  { dates := [0, 1], tickers := ["A", "B"]
  , cols := [(("Close", "A"), [1, 1]), (("Adj Close", "A"), [1, 1]),
             (("Open", "B"), [1, 1]), (("Close", "B"), [1, 1]),
             (("Adj Close", "B"), [1, 1])] }

/-- The empty price table (fetch returned nothing). -/
def emptyTable : PriceTable := { dates := [], tickers := [], cols := [] }

/-- The empty returns table: what `calculate_returns` yields on `emptyTable`. -/
def emptyReturns : ReturnsTable := { index := [], cols := [], warnings := [] }

/-- Concrete open-to-close table with cumulative returns [1.0, 1.05]. -/
def R1 : ReturnsTable :=
  { index := [0, 1], cols := [("X", [1, 21/20])], warnings := [] }

/-- Concrete one-point returns table with cumulative return [1.0]. -/
def R2 : ReturnsTable :=
  { index := [0], cols := [("X", [1])], warnings := [] }

/-- The figure rendered from `R1`, `R2`, `R2` with initial investment 100:
dollar series [100, 105], [100], [100]. -/
def FigC4 : Figure :=
  { traces := [("X - Apertura a Cierre", [100, 105]), ("X - Cierre a Apertura", [100]),
               ("X - Comprar y Mantener", [100])]
  , refLine := ((0, 1), 100), logScale := false, yLogRangeArgs := none }

/-- Concrete one-point returns table with cumulative return [0.01]: its dollar
value under initial investment 100 is 1. -/
def Roc9 : ReturnsTable :=
  { index := [0], cols := [("X", [1/100])], warnings := [] }

/-- The figure rendered from `Roc9` three times with initial investment 100 on
log scale: drawn values [1, 1, 1], appended investment 100, minimum positive
value 1, maximum 100, padding 9.9, so the lower log argument hits the 0.1
floor. -/
def Fig9 : Figure :=
  { traces := [("X - Apertura a Cierre", [1]), ("X - Cierre a Apertura", [1]),
               ("X - Comprar y Mantener", [1])]
  , refLine := ((0, 0), 100), logScale := true, yLogRangeArgs := some (1/10, 1099/10) }

/-- Concrete open-to-close table whose dollar values under initial investment
100 are [50, 100, 150]. -/
def Roc9b : ReturnsTable :=
  { index := [0, 1, 2], cols := [("X", [1/2, 1, 3/2])], warnings := [] }

/-- The figure rendered from `Roc9b`, `R2`, `R2` with initial investment 100 on
log scale: min positive 50, max 150, padding 10, log range arguments 40 and
160. -/
def Fig9b : Figure :=
  { traces := [("X - Apertura a Cierre", [50, 100, 150]), ("X - Cierre a Apertura", [100]),
               ("X - Comprar y Mantener", [100])]
  , refLine := ((0, 2), 100), logScale := true, yLogRangeArgs := some (40, 160) }

/-- Length of a running product. -/
theorem cumprodFrom_length (a : ℚ) (xs : List ℚ) :
    (cumprodFrom a xs).length = xs.length := by
  induction xs generalizing a with
  | nil => rfl
  | cons x xs ih => simp [cumprodFrom, ih]

/-- Entry `i` of a running product is the seed times the product of the first
`i + 1` factors. -/
theorem cumprodFrom_getElem? (a : ℚ) (xs : List ℚ) (i : ℕ) (h : i < xs.length) :
    (cumprodFrom a xs)[i]? = some (a * ((xs.take (i + 1)).prod)) := by
  induction xs generalizing a i with
  | nil => simp at h
  | cons x xs ih =>
    cases i with
    | zero => simp [cumprodFrom]
    | succ n =>
      have hn : n < xs.length := by simpa using h
      simp only [cumprodFrom, List.getElem?_cons_succ]
      rw [ih (a * x) n hn]
      simp [mul_assoc]

/-- Pandas `cumprod` at entry `i` is the product of the first `i + 1`
factors. -/
theorem cumprod_getElem? (xs : List ℚ) (i : ℕ) (h : i < xs.length) :
    (cumprod xs)[i]? = some ((xs.take (i + 1)).prod) := by
  simpa [cumprod] using cumprodFrom_getElem? 1 xs i h

/-- Length of pandas `cumprod`. -/
theorem cumprod_length (xs : List ℚ) : (cumprod xs).length = xs.length :=
  cumprodFrom_length 1 xs

/-- Unfolding of the open-to-close branch of `dailyReturns`. -/
theorem dailyReturns_open_to_close (data : PriceTable) (t : String) :
    dailyReturns data "open_to_close" t =
      match data.col "Close" t, data.col "Open" t with
      | some c, some o => .ok (List.zipWith (fun x y => x / y - 1) c o)
      | _, _ => .error .keyError := rfl

/-- Unfolding of the close-to-open branch of `dailyReturns`. -/
theorem dailyReturns_close_to_open (data : PriceTable) (t : String) :
    dailyReturns data "close_to_open" t =
      match data.col "Open" t, data.col "Close" t with
      | some o, some c => .ok (List.zipWith (fun x y => x / y - 1) (o.drop 1) c)
      | _, _ => .error .keyError := rfl

/-- Unfolding of the buy-and-hold branch of `dailyReturns`. -/
theorem dailyReturns_buy_and_hold (data : PriceTable) (t : String) :
    dailyReturns data "buy_and_hold" t =
      match data.col "Adj Close" t with
      | some a => .ok (List.zipWith (fun x y => x / y - 1) (a.drop 1) a)
      | none => .error .keyError := rfl

/-- An unrecognized strategy raises `ValueError` for every ticker. -/
theorem dailyReturns_invalid (data : PriceTable) (s t : String)
    (h1 : s ≠ "open_to_close") (h2 : s ≠ "close_to_open") (h3 : s ≠ "buy_and_hold") :
    dailyReturns data s t = .error .valueError := by
  simp [dailyReturns, h1, h2, h3]

/-- A recognized strategy never raises `ValueError`. -/
theorem dailyReturns_ne_valueError (data : PriceTable) (s t : String)
    (hs : s = "open_to_close" ∨ s = "close_to_open" ∨ s = "buy_and_hold") :
    dailyReturns data s t ≠ .error .valueError := by
  rcases hs with h | h | h <;> subst h
  · rw [dailyReturns_open_to_close]
    cases data.col "Close" t <;> cases data.col "Open" t <;> simp
  · rw [dailyReturns_close_to_open]
    cases data.col "Open" t <;> cases data.col "Close" t <;> simp
  · rw [dailyReturns_buy_and_hold]
    cases data.col "Adj Close" t <;> simp

/-- For a recognized strategy the loop of `calculate_returns` succeeds and
appends, per ticker, either its cumulative series or a warning. -/
theorem calcLoop_ok (data : PriceTable) (s : String)
    (hs : s = "open_to_close" ∨ s = "close_to_open" ∨ s = "buy_and_hold")
    (ts : List String) :
    ∀ acc, calcLoop data s ts acc =
      .ok (acc.1 ++ ts.filterMap (fun t => (tickerSeries data s t).map (fun v => (t, v))),
           acc.2 ++ ts.filter (fun t => (tickerSeries data s t).isNone)) := by
  induction ts with
  | nil => intro acc; simp [calcLoop]
  | cons t ts ih =>
    intro acc
    have hne := dailyReturns_ne_valueError data s t hs
    cases hd : dailyReturns data s t with
    | ok d =>
      simp only [calcLoop, hd]
      rw [ih (acc.1 ++ [(t, cumulativeReturns d)], acc.2)]
      simp [tickerSeries, hd, Except.toOption, List.filterMap_cons]
    | error e =>
      cases e with
      | keyError =>
        simp only [calcLoop, hd]
        rw [ih (acc.1, acc.2 ++ [t])]
        simp [tickerSeries, hd, Except.toOption, List.filterMap_cons]
      | valueError => exact absurd hd hne

/-- For a recognized strategy `calculate_returns` returns the table of
surviving columns, the strategy's date index (empty when no ticker survived),
and the skipped tickers as warnings. -/
theorem calculate_returns_ok (data : PriceTable) (s : String)
    (hs : s = "open_to_close" ∨ s = "close_to_open" ∨ s = "buy_and_hold") :
    calculate_returns data s = .ok (strategyTable data s) := by
  simp [calculate_returns, calcLoop_ok data s hs data.tickers ([], []),
    strategyTable, strategyCols, strategyWarnings]

/-- A key that is not among the tickers is absent from the assembled columns. -/
theorem lookup_filterMap_of_not_mem {β : Type} (f : String → Option β) (t : String) :
    ∀ ts : List String, t ∉ ts →
      (ts.filterMap (fun x => (f x).map (fun v => (x, v)))).lookup t = none := by
  intro ts
  induction ts with
  | nil => intro _; rfl
  | cons x xs ih =>
    intro h
    have hx : (t == x) = false := by
      refine beq_eq_false_iff_ne.mpr fun e => h ?_
      exact e ▸ List.mem_cons_self x xs
    have ht : t ∉ xs := fun e => h (List.mem_cons_of_mem x e)
    cases hf : f x with
    | none => simp [List.filterMap_cons, hf, ih ht]
    | some v => simp [List.filterMap_cons, hf, List.lookup, hx, ih ht]

/-- Looking a present ticker up in the assembled columns yields exactly its
own optional series. -/
theorem lookup_filterMap_of_mem {β : Type} (f : String → Option β) (t : String) :
    ∀ ts : List String, ts.Nodup → t ∈ ts →
      (ts.filterMap (fun x => (f x).map (fun v => (x, v)))).lookup t = f t := by
  intro ts
  induction ts with
  | nil => intro _ h; simp at h
  | cons x xs ih =>
    intro nd hm
    rcases List.mem_cons.mp hm with rfl | hm2
    · have hnx : t ∉ xs := (List.nodup_cons.mp nd).1
      cases hf : f t with
      | none => simp [List.filterMap_cons, hf, lookup_filterMap_of_not_mem f t xs hnx]
      | some v =>
        have hself : (t == t) = true := beq_self_eq_true t
        simp [List.filterMap_cons, hf, List.lookup, hself]
    · have hx : (t == x) = false := by
        refine beq_eq_false_iff_ne.mpr ?_
        rintro rfl
        exact (List.nodup_cons.mp nd).1 hm2
      have ihx := ih (List.nodup_cons.mp nd).2 hm2
      cases hf : f x with
      | none => simp [List.filterMap_cons, hf, ihx]
      | some v => simp [List.filterMap_cons, hf, List.lookup, hx, ihx]

/-- A successful lookup exhibits a member of the association list. -/
theorem mem_of_lookup_eq_some {β : Type} (t : String) (v : β) :
    ∀ l : List (String × β), l.lookup t = some v → (t, v) ∈ l := by
  intro l
  induction l with
  | nil => intro h; simp [List.lookup] at h
  | cons p ps ih =>
    obtain ⟨k, b⟩ := p
    intro h
    cases hk : (t == k) with
    | true =>
      have hkt : t = k := eq_of_beq hk
      subst hkt
      have hb : b = v := by
        have : some b = some v := by simpa [List.lookup, hk] using h
        exact Option.some.inj this
      subst hb
      exact List.mem_cons_self _ _
    | false =>
      have h2 : ps.lookup t = some v := by simpa [List.lookup, hk] using h
      exact List.mem_cons_of_mem _ (ih h2)

/-- Adding one to each open-to-close daily return gives the Close over Open
ratios. -/
theorem map_one_add_zipWith_div (c o : List ℚ) :
    (List.zipWith (fun x y => x / y - 1) c o).map (fun r => 1 + r) =
      List.zipWith (fun x y => x / y) c o := by
  induction c generalizing o with
  | nil => simp
  | cons x xs ih =>
    cases o with
    | nil => simp
    | cons y ys =>
      simp only [List.zipWith_cons_cons, List.map_cons, ih]
      congr 1
      ring

/-- A table whose ticker lookup succeeds has a nonempty column list. -/
theorem isEmpty_false_of_lookup {β : Type} (l : List (String × β)) (t : String) (v : β)
    (h : l.lookup t = some v) : l.isEmpty = false := by
  cases l with
  | nil => simp [List.lookup] at h
  | cons p ps => rfl

/-- C1: with Open and Close present over the whole date range, the
open-to-close series keeps every date and its value at each date is the
running product of the Close over Open ratios up to that date. -/
theorem open_to_close_running_product (data : PriceTable) (t : String) (c o : List ℚ)
    (nd : data.tickers.Nodup) (ht : t ∈ data.tickers)
    (hc : data.col "Close" t = some c) (ho : data.col "Open" t = some o)
    (hcl : c.length = data.dates.length) (hol : o.length = data.dates.length) :
    ∃ r : ReturnsTable, calculate_returns data "open_to_close" = .ok r ∧
      r.index = data.dates ∧
      ∃ s : List ℚ, r.cols.lookup t = some s ∧ s.length = data.dates.length ∧
        ∀ i : ℕ, i < data.dates.length →
          s[i]? = some (((List.zipWith (fun x y => x / y) c o).take (i + 1)).prod) := by
  have hvalid : ("open_to_close" : String) = "open_to_close" ∨
      ("open_to_close" : String) = "close_to_open" ∨
      ("open_to_close" : String) = "buy_and_hold" := Or.inl rfl
  have hser : tickerSeries data "open_to_close" t =
      some (cumulativeReturns (List.zipWith (fun x y => x / y - 1) c o)) := by
    simp [tickerSeries, dailyReturns_open_to_close, hc, ho, Except.toOption]
  have hlook : (strategyCols data "open_to_close").lookup t =
      some (cumulativeReturns (List.zipWith (fun x y => x / y - 1) c o)) := by
    rw [strategyCols, lookup_filterMap_of_mem _ t data.tickers nd ht, hser]
  have hne : (strategyCols data "open_to_close").isEmpty = false :=
    isEmpty_false_of_lookup _ t _ hlook
  refine ⟨_, calculate_returns_ok data "open_to_close" hvalid, ?_, ?_⟩
  · simp [strategyTable, hne, stratIndex]
  · refine ⟨_, hlook, ?_, ?_⟩
    · simp [cumulativeReturns, cumprod_length, List.length_zipWith, hcl, hol]
    · intro i hi
      have hi2 : i < ((List.zipWith (fun x y => x / y - 1) c o).map (fun r => 1 + r)).length := by
        simpa [List.length_zipWith, hcl, hol] using hi
      rw [cumulativeReturns, cumprod_getElem? _ i hi2]
      rw [map_one_add_zipWith_div]

/-- Witness for C1 at the spec's worked example: Open = [10, 11],
Close = [10.5, 11.5] gives the cumulative series [1.05, 1.05 × (11.5/11)]. -/
theorem open_to_close_running_product_witness :
    (dataC1.tickers.Nodup ∧ ("X" : String) ∈ dataC1.tickers ∧
      dataC1.col "Close" "X" = some [21/2, 23/2] ∧
      dataC1.col "Open" "X" = some [10, 11] ∧
      ([21/2, 23/2] : List ℚ).length = dataC1.dates.length ∧
      ([10, 11] : List ℚ).length = dataC1.dates.length) ∧
    calculate_returns dataC1 "open_to_close" =
      .ok { index := [0, 1], cols := [("X", [21/20, 483/440])], warnings := [] } ∧
    (∃ r : ReturnsTable, calculate_returns dataC1 "open_to_close" = .ok r ∧
      r.index = dataC1.dates ∧
      ∃ s : List ℚ, r.cols.lookup "X" = some s ∧ s.length = dataC1.dates.length ∧
        ∀ i : ℕ, i < dataC1.dates.length →
          s[i]? = some (((List.zipWith (fun x y => x / y)
            ([21/2, 23/2] : List ℚ) [10, 11]).take (i + 1)).prod)) := by
  have h1 : dataC1.tickers.Nodup := by decide
  have h2 : ("X" : String) ∈ dataC1.tickers := by decide
  have h3 : dataC1.col "Close" "X" = some [21/2, 23/2] := by
    simp +decide [dataC1, PriceTable.col, List.find?]
  have h4 : dataC1.col "Open" "X" = some [10, 11] := by
    simp +decide [dataC1, PriceTable.col, List.find?]
  have h5 : ([21/2, 23/2] : List ℚ).length = dataC1.dates.length := by decide
  have h6 : ([10, 11] : List ℚ).length = dataC1.dates.length := by decide
  refine ⟨⟨h1, h2, h3, h4, h5, h6⟩, ?_, ?_⟩
  · simp +decide [calculate_returns, calcLoop, dailyReturns, dataC1, PriceTable.col,
      List.find?, cumulativeReturns, cumprod, cumprodFrom, stratIndex]
    norm_num
  · exact open_to_close_running_product dataC1 "X" [21/2, 23/2] [10, 11] h1 h2 h3 h4 h5 h6

/-- C2: with Open and Close present over the whole date range, the
close-to-open series drops the final date and its value at each kept date is
the running product of one plus the overnight returns Open(d+1)/Close(d) - 1
up to that date. -/
theorem close_to_open_drops_tail (data : PriceTable) (t : String) (o c : List ℚ)
    (nd : data.tickers.Nodup) (ht : t ∈ data.tickers)
    (ho : data.col "Open" t = some o) (hc : data.col "Close" t = some c)
    (hol : o.length = data.dates.length) (hcl : c.length = data.dates.length) :
    ∃ r : ReturnsTable, calculate_returns data "close_to_open" = .ok r ∧
      r.index = data.dates.dropLast ∧
      ∃ s : List ℚ, r.cols.lookup t = some s ∧ s.length = data.dates.length - 1 ∧
        ∀ i : ℕ, i < data.dates.length - 1 →
          s[i]? = some ((((List.zipWith (fun x y => x / y - 1) (o.drop 1) c).take
            (i + 1)).map (fun d => 1 + d)).prod) := by
  have hvalid : ("close_to_open" : String) = "open_to_close" ∨
      ("close_to_open" : String) = "close_to_open" ∨
      ("close_to_open" : String) = "buy_and_hold" := Or.inr (Or.inl rfl)
  have hser : tickerSeries data "close_to_open" t =
      some (cumulativeReturns (List.zipWith (fun x y => x / y - 1) (o.drop 1) c)) := by
    simp [tickerSeries, dailyReturns_close_to_open, ho, hc, Except.toOption]
  have hlook : (strategyCols data "close_to_open").lookup t =
      some (cumulativeReturns (List.zipWith (fun x y => x / y - 1) (o.drop 1) c)) := by
    rw [strategyCols, lookup_filterMap_of_mem _ t data.tickers nd ht, hser]
  have hne : (strategyCols data "close_to_open").isEmpty = false :=
    isEmpty_false_of_lookup _ t _ hlook
  have hdl : (List.zipWith (fun x y => x / y - 1) (o.drop 1) c).length =
      data.dates.length - 1 := by
    simp [List.length_zipWith, List.length_drop, hol, hcl]
  refine ⟨_, calculate_returns_ok data "close_to_open" hvalid, ?_, ?_⟩
  · simp [strategyTable, hne, stratIndex]
  · refine ⟨_, hlook, ?_, ?_⟩
    · rw [cumulativeReturns, cumprod_length, List.length_map, hdl]
    · intro i hi
      have hi2 : i < ((List.zipWith (fun x y => x / y - 1) (o.drop 1) c).map
          (fun r => 1 + r)).length := by
        rw [List.length_map, hdl]
        exact hi
      rw [cumulativeReturns, cumprod_getElem? _ i hi2]
      rw [List.map_take]

/-- Witness for C2 on the worked example table: Open = [10, 11],
Close = [10.5, 11.5] gives the single overnight cumulative return
[11/10.5] = [22/21] on the first date only. -/
theorem close_to_open_drops_tail_witness :
    (dataC1.tickers.Nodup ∧ ("X" : String) ∈ dataC1.tickers ∧
      dataC1.col "Open" "X" = some [10, 11] ∧
      dataC1.col "Close" "X" = some [21/2, 23/2] ∧
      ([10, 11] : List ℚ).length = dataC1.dates.length ∧
      ([21/2, 23/2] : List ℚ).length = dataC1.dates.length) ∧
    calculate_returns dataC1 "close_to_open" =
      .ok { index := [0], cols := [("X", [22/21])], warnings := [] } ∧
    (∃ r : ReturnsTable, calculate_returns dataC1 "close_to_open" = .ok r ∧
      r.index = dataC1.dates.dropLast ∧
      ∃ s : List ℚ, r.cols.lookup "X" = some s ∧ s.length = dataC1.dates.length - 1 ∧
        ∀ i : ℕ, i < dataC1.dates.length - 1 →
          s[i]? = some ((((List.zipWith (fun x y => x / y - 1)
            (([10, 11] : List ℚ).drop 1) [21/2, 23/2]).take (i + 1)).map
            (fun d => 1 + d)).prod)) := by
  have h1 : dataC1.tickers.Nodup := by decide
  have h2 : ("X" : String) ∈ dataC1.tickers := by decide
  have h3 : dataC1.col "Open" "X" = some [10, 11] := by
    simp +decide [dataC1, PriceTable.col, List.find?]
  have h4 : dataC1.col "Close" "X" = some [21/2, 23/2] := by
    simp +decide [dataC1, PriceTable.col, List.find?]
  have h5 : ([10, 11] : List ℚ).length = dataC1.dates.length := by decide
  have h6 : ([21/2, 23/2] : List ℚ).length = dataC1.dates.length := by decide
  refine ⟨⟨h1, h2, h3, h4, h5, h6⟩, ?_, ?_⟩
  · simp +decide [calculate_returns, calcLoop, dailyReturns, dataC1, PriceTable.col,
      List.find?, cumulativeReturns, cumprod, cumprodFrom, stratIndex]
    norm_num
  · exact close_to_open_drops_tail dataC1 "X" [10, 11] [21/2, 23/2] h1 h2 h3 h4 h5 h6

/-- C3 counterexample: on a one-date table with Open = [10] and
Close = [10.5] the open-to-close series is [1.05], not [1.0] — the first
value of the series is Close/Open, not 1. -/
theorem first_value_not_one_counterexample :
    calculate_returns dataC3 "open_to_close" =
      .ok { index := [0], cols := [("X", [21/20])], warnings := [] } ∧
    ((21 : ℚ) / 20) ≠ 1 := by
  constructor
  · simp +decide [calculate_returns, calcLoop, dailyReturns, dataC3, PriceTable.col,
      List.find?, cumulativeReturns, cumprod, cumprodFrom, stratIndex]
    norm_num
  · norm_num

/-- C3 amended: the first value of the open-to-close cumulative series is
Close(d1)/Open(d1) (so 1.0 only when the first Close equals the first Open),
and a ticker with a single usable date yields the one-point series
[Close(d1)/Open(d1)]. -/
theorem open_to_close_first_value (data : PriceTable) (t : String) (c0 o0 : ℚ)
    (ct ot : List ℚ) (nd : data.tickers.Nodup) (ht : t ∈ data.tickers)
    (hc : data.col "Close" t = some (c0 :: ct)) (ho : data.col "Open" t = some (o0 :: ot)) :
    ∃ r : ReturnsTable, calculate_returns data "open_to_close" = .ok r ∧
      ∃ s : List ℚ, r.cols.lookup t = some s ∧ s.head? = some (c0 / o0) ∧
        (ct = [] → ot = [] → s = [c0 / o0]) := by
  have hvalid : ("open_to_close" : String) = "open_to_close" ∨
      ("open_to_close" : String) = "close_to_open" ∨
      ("open_to_close" : String) = "buy_and_hold" := Or.inl rfl
  have hser : tickerSeries data "open_to_close" t =
      some (cumulativeReturns (List.zipWith (fun x y => x / y - 1) (c0 :: ct) (o0 :: ot))) := by
    simp [tickerSeries, dailyReturns_open_to_close, hc, ho, Except.toOption]
  have hlook : (strategyCols data "open_to_close").lookup t =
      some (cumulativeReturns (List.zipWith (fun x y => x / y - 1) (c0 :: ct) (o0 :: ot))) := by
    rw [strategyCols, lookup_filterMap_of_mem _ t data.tickers nd ht, hser]
  refine ⟨_, calculate_returns_ok data "open_to_close" hvalid, _, hlook, ?_, ?_⟩
  · simp [cumulativeReturns, cumprod, cumprodFrom]
  · rintro rfl rfl
    simp [cumulativeReturns, cumprod, cumprodFrom]

/-- Witness for the amended C3 at the one-date table: the series is exactly
[10.5/10]. -/
theorem open_to_close_first_value_witness :
    (dataC3.tickers.Nodup ∧ ("X" : String) ∈ dataC3.tickers ∧
      dataC3.col "Close" "X" = some [21/2] ∧ dataC3.col "Open" "X" = some [10]) ∧
    (∃ r : ReturnsTable, calculate_returns dataC3 "open_to_close" = .ok r ∧
      ∃ s : List ℚ, r.cols.lookup "X" = some s ∧ s.head? = some ((21 : ℚ)/2 / 10) ∧
        (([] : List ℚ) = [] → ([] : List ℚ) = [] → s = [(21 : ℚ)/2 / 10])) := by
  have h1 : dataC3.tickers.Nodup := by decide
  have h2 : ("X" : String) ∈ dataC3.tickers := by decide
  have h3 : dataC3.col "Close" "X" = some [21/2] := by
    simp +decide [dataC3, PriceTable.col, List.find?]
  have h4 : dataC3.col "Open" "X" = some [10] := by
    simp +decide [dataC3, PriceTable.col, List.find?]
  exact ⟨⟨h1, h2, h3, h4⟩,
    open_to_close_first_value dataC3 "X" (21/2) 10 [] [] h1 h2 h3 h4⟩

/-- C6: a ticker missing the Adj Close column while Open and Close are
present is skipped by buy-and-hold with a warning naming it, every ticker
that does have Adj Close is still processed, and the same ticker still
appears in the open-to-close and close-to-open results — strategies fail
independently per ticker. -/
theorem strategies_fail_independently (data : PriceTable) (t : String) (o c : List ℚ)
    (nd : data.tickers.Nodup) (ht : t ∈ data.tickers)
    (hna : data.col "Adj Close" t = none)
    (ho : data.col "Open" t = some o) (hc : data.col "Close" t = some c) :
    ∃ rb : ReturnsTable, calculate_returns data "buy_and_hold" = .ok rb ∧
      rb.cols.lookup t = none ∧ t ∈ rb.warnings ∧
      (∀ u : String, ∀ a : List ℚ, u ∈ data.tickers → data.col "Adj Close" u = some a →
        rb.cols.lookup u =
          some (cumulativeReturns (List.zipWith (fun x y => x / y - 1) (a.drop 1) a))) ∧
      (∃ ro : ReturnsTable, calculate_returns data "open_to_close" = .ok ro ∧
        (ro.cols.lookup t).isSome = true) ∧
      (∃ rc : ReturnsTable, calculate_returns data "close_to_open" = .ok rc ∧
        (rc.cols.lookup t).isSome = true) := by
  have hbh : ("buy_and_hold" : String) = "open_to_close" ∨
      ("buy_and_hold" : String) = "close_to_open" ∨
      ("buy_and_hold" : String) = "buy_and_hold" := Or.inr (Or.inr rfl)
  have hoc : ("open_to_close" : String) = "open_to_close" ∨
      ("open_to_close" : String) = "close_to_open" ∨
      ("open_to_close" : String) = "buy_and_hold" := Or.inl rfl
  have hco : ("close_to_open" : String) = "open_to_close" ∨
      ("close_to_open" : String) = "close_to_open" ∨
      ("close_to_open" : String) = "buy_and_hold" := Or.inr (Or.inl rfl)
  have hsert : tickerSeries data "buy_and_hold" t = none := by
    simp [tickerSeries, dailyReturns_buy_and_hold, hna, Except.toOption]
  refine ⟨_, calculate_returns_ok data "buy_and_hold" hbh, ?_, ?_, ?_, ?_, ?_⟩
  · show (strategyCols data "buy_and_hold").lookup t = none
    rw [strategyCols, lookup_filterMap_of_mem _ t data.tickers nd ht, hsert]
  · show t ∈ strategyWarnings data "buy_and_hold"
    rw [strategyWarnings, List.mem_filter]
    exact ⟨ht, by simp [hsert]⟩
  · intro u a hu ha
    have hseru : tickerSeries data "buy_and_hold" u =
        some (cumulativeReturns (List.zipWith (fun x y => x / y - 1) (a.drop 1) a)) := by
      simp [tickerSeries, dailyReturns_buy_and_hold, ha, Except.toOption]
    show (strategyCols data "buy_and_hold").lookup u = _
    rw [strategyCols, lookup_filterMap_of_mem _ u data.tickers nd hu, hseru]
  · refine ⟨_, calculate_returns_ok data "open_to_close" hoc, ?_⟩
    show ((strategyCols data "open_to_close").lookup t).isSome = true
    rw [strategyCols, lookup_filterMap_of_mem _ t data.tickers nd ht]
    simp [tickerSeries, dailyReturns_open_to_close, hc, ho, Except.toOption]
  · refine ⟨_, calculate_returns_ok data "close_to_open" hco, ?_⟩
    show ((strategyCols data "close_to_open").lookup t).isSome = true
    rw [strategyCols, lookup_filterMap_of_mem _ t data.tickers nd ht]
    simp [tickerSeries, dailyReturns_close_to_open, hc, ho, Except.toOption]

/-- Witness for C6 on `data5`: ticker A lacks `Adj Close` but has Open and
Close; B is complete. -/
theorem strategies_fail_independently_witness :
    (data5.tickers.Nodup ∧ ("A" : String) ∈ data5.tickers ∧
      data5.col "Adj Close" "A" = none ∧
      data5.col "Open" "A" = some [1, 1] ∧ data5.col "Close" "A" = some [1, 1]) ∧
    (∃ rb : ReturnsTable, calculate_returns data5 "buy_and_hold" = .ok rb ∧
      rb.cols.lookup "A" = none ∧ ("A" : String) ∈ rb.warnings ∧
      (∀ u : String, ∀ a : List ℚ, u ∈ data5.tickers → data5.col "Adj Close" u = some a →
        rb.cols.lookup u =
          some (cumulativeReturns (List.zipWith (fun x y => x / y - 1) (a.drop 1) a))) ∧
      (∃ ro : ReturnsTable, calculate_returns data5 "open_to_close" = .ok ro ∧
        (ro.cols.lookup "A").isSome = true) ∧
      (∃ rc : ReturnsTable, calculate_returns data5 "close_to_open" = .ok rc ∧
        (rc.cols.lookup "A").isSome = true)) := by
  have h1 : data5.tickers.Nodup := by decide
  have h2 : ("A" : String) ∈ data5.tickers := by decide
  have h3 : data5.col "Adj Close" "A" = none := by
    simp +decide [data5, PriceTable.col, List.find?]
  have h4 : data5.col "Open" "A" = some [1, 1] := by
    simp +decide [data5, PriceTable.col, List.find?]
  have h5 : data5.col "Close" "A" = some [1, 1] := by
    simp +decide [data5, PriceTable.col, List.find?]
  exact ⟨⟨h1, h2, h3, h4, h5⟩,
    strategies_fail_independently data5 "A" [1, 1] [1, 1] h1 h2 h3 h4 h5⟩

/-- C8: on a table with at least one ticker, an unrecognized strategy makes
`calculate_returns` raise `ValueError` out of the whole call — the per-ticker
`except KeyError` handler does not absorb it. -/
theorem invalid_strategy_raises (data : PriceTable) (s : String)
    (h1 : s ≠ "open_to_close") (h2 : s ≠ "close_to_open") (h3 : s ≠ "buy_and_hold")
    (hne : data.tickers ≠ []) :
    calculate_returns data s = .error .valueError := by
  obtain ⟨t, ts, hts⟩ : ∃ t ts, data.tickers = t :: ts := by
    cases h : data.tickers with
    | nil => exact absurd h hne
    | cons t ts => exact ⟨t, ts, rfl⟩
  have hd := dailyReturns_invalid data s t h1 h2 h3
  simp only [calculate_returns, hts, calcLoop, hd]

/-- Witness for C8: strategy "bogus" on the two-ticker table `data5`. -/
theorem invalid_strategy_raises_witness :
    (("bogus" : String) ≠ "open_to_close" ∧ ("bogus" : String) ≠ "close_to_open" ∧
      ("bogus" : String) ≠ "buy_and_hold" ∧ data5.tickers ≠ []) ∧
    calculate_returns data5 "bogus" = .error .valueError := by
  have h1 : ("bogus" : String) ≠ "open_to_close" := by decide
  have h2 : ("bogus" : String) ≠ "close_to_open" := by decide
  have h3 : ("bogus" : String) ≠ "buy_and_hold" := by decide
  have h4 : data5.tickers ≠ [] := by decide
  exact ⟨⟨h1, h2, h3, h4⟩, invalid_strategy_raises data5 "bogus" h1 h2 h3 h4⟩

/-- If some open-to-close ticker is missing from one of the other two tables,
the renderer loop raises `KeyError` whatever was accumulated so far. -/
theorem plotLoop_keyError (r_co r_bh : ReturnsTable) (init : ℚ) :
    ∀ (ps : List (String × List ℚ)) (acc : List (String × List ℚ) × List ℚ),
      (∃ p ∈ ps, r_co.cols.lookup p.1 = none ∨ r_bh.cols.lookup p.1 = none) →
      plotLoop r_co r_bh init ps acc = .error .keyError := by
  intro ps
  induction ps with
  | nil => intro acc h; simp at h
  | cons p ps ih =>
    intro acc h
    cases hco : r_co.cols.lookup p.1 with
    | none => simp only [plotLoop, hco]
    | some sco =>
      cases hbh : r_bh.cols.lookup p.1 with
      | none => simp only [plotLoop, hco, hbh]
      | some sbh =>
        simp only [plotLoop, hco, hbh]
        apply ih
        rcases h with ⟨q, hq, hcase⟩
        rcases List.mem_cons.mp hq with rfl | hq2
        · rcases hcase with hx | hx
          · rw [hco] at hx; exact absurd hx (by simp)
          · rw [hbh] at hx; exact absurd hx (by simp)
        · exact ⟨q, hq2, hcase⟩

/-- Every trace the renderer loop emits is some table series scaled by the
initial investment. -/
theorem plotLoop_traces_sound (r_co r_bh : ReturnsTable) (init : ℚ) :
    ∀ (ps : List (String × List ℚ)) (acc out : List (String × List ℚ) × List ℚ),
      plotLoop r_co r_bh init ps acc = .ok out →
      ∀ nv ∈ out.1, nv ∈ acc.1 ∨ ∃ t s,
        ((t, s) ∈ ps ∨ r_co.cols.lookup t = some s ∨ r_bh.cols.lookup t = some s) ∧
        nv.2 = s.map (fun v => v * init) := by
  intro ps
  induction ps with
  | nil =>
    intro acc out h nv hnv
    have heq : acc = out := by simpa [plotLoop] using h
    subst heq
    exact Or.inl hnv
  | cons p ps ih =>
    intro acc out h nv hnv
    cases hco : r_co.cols.lookup p.1 with
    | none => rw [plotLoop, hco] at h; simp at h
    | some sco =>
      cases hbh : r_bh.cols.lookup p.1 with
      | none => rw [plotLoop, hco, hbh] at h; simp at h
      | some sbh =>
        rw [plotLoop, hco, hbh] at h
        rcases ih _ out h nv hnv with hacc | ⟨t, s, hsrc, hval⟩
        · rcases List.mem_append.mp hacc with h1 | h2
          · exact Or.inl h1
          · right
            simp only [List.mem_cons, List.not_mem_nil, or_false] at h2
            rcases h2 with rfl | rfl | rfl
            · exact ⟨p.1, p.2, Or.inl (by simp), by simp⟩
            · exact ⟨p.1, sco, Or.inr (Or.inl hco), by simp⟩
            · exact ⟨p.1, sbh, Or.inr (Or.inr hbh), by simp⟩
        · refine Or.inr ⟨t, s, ?_, hval⟩
          rcases hsrc with h1 | h1 | h1
          · exact Or.inl (List.mem_cons_of_mem p h1)
          · exact Or.inr (Or.inl h1)
          · exact Or.inr (Or.inr h1)

/-- The accumulated `all_values` list is the concatenation of the values of
the emitted traces. -/
theorem plotLoop_values (r_co r_bh : ReturnsTable) (init : ℚ) :
    ∀ (ps : List (String × List ℚ)) (acc out : List (String × List ℚ) × List ℚ),
      plotLoop r_co r_bh init ps acc = .ok out →
      acc.2 = (acc.1.map (fun q => q.2)).flatten →
      out.2 = (out.1.map (fun q => q.2)).flatten := by
  intro ps
  induction ps with
  | nil =>
    intro acc out h hinv
    have heq : acc = out := by simpa [plotLoop] using h
    subst heq
    exact hinv
  | cons p ps ih =>
    intro acc out h hinv
    cases hco : r_co.cols.lookup p.1 with
    | none => rw [plotLoop, hco] at h; simp at h
    | some sco =>
      cases hbh : r_bh.cols.lookup p.1 with
      | none => rw [plotLoop, hco, hbh] at h; simp at h
      | some sbh =>
        rw [plotLoop, hco, hbh] at h
        refine ih _ out h ?_
        simp [List.map_append, List.flatten_append, hinv, List.append_assoc]

/-- C4: every trace the renderer draws is, pointwise at every date, the
corresponding cumulative return series multiplied by the initial investment. -/
theorem dollar_value_roundtrip (r_oc r_co r_bh : ReturnsTable) (init : ℚ) (ls : Bool)
    (fig : Figure) (h : plot_investment_value r_oc r_co r_bh init ls = .ok fig) :
    ∀ nv ∈ fig.traces, ∃ t s,
      ((t, s) ∈ r_oc.cols ∨ r_co.cols.lookup t = some s ∨ r_bh.cols.lookup t = some s) ∧
      nv.2 = s.map (fun v => v * init) ∧
      ∀ i : ℕ, nv.2[i]? = (s[i]?).map (fun v => v * init) := by
  intro nv hnv
  unfold plot_investment_value at h
  cases hl : plotLoop r_co r_bh init r_oc.cols ([], []) with
  | error e => rw [hl] at h; simp at h
  | ok tv =>
    obtain ⟨traces, vals⟩ := tv
    rw [hl] at h
    cases hh : r_oc.index.head? with
    | none => cases hg : r_oc.index.getLast? <;> rw [hh, hg] at h <;> simp at h
    | some x0 =>
      cases hg : r_oc.index.getLast? with
      | none => rw [hh, hg] at h; simp at h
      | some xn =>
        rw [hh, hg] at h
        have hfig := Except.ok.inj h
        have htr : fig.traces = traces := by rw [← hfig]
        rw [htr] at hnv
        rcases plotLoop_traces_sound r_co r_bh init r_oc.cols ([], []) (traces, vals)
            hl nv hnv with h0 | ⟨t, s, hsrc, hval⟩
        · simp at h0
        · refine ⟨t, s, hsrc, hval, ?_⟩
          intro i
          rw [hval, List.getElem?_map]

/-- Witness for C4: cumulative returns [1.0, 1.05] with initial investment 100
are drawn as the dollar series [100, 105]. -/
theorem dollar_value_roundtrip_witness :
    plot_investment_value R1 R2 R2 100 false = .ok FigC4 ∧
    ("X - Apertura a Cierre", ([100, 105] : List ℚ)) ∈ FigC4.traces ∧
    (∀ nv ∈ FigC4.traces, ∃ t s,
      ((t, s) ∈ R1.cols ∨ R2.cols.lookup t = some s ∨ R2.cols.lookup t = some s) ∧
      nv.2 = s.map (fun v => v * (100 : ℚ)) ∧
      ∀ i : ℕ, nv.2[i]? = (s[i]?).map (fun v => v * (100 : ℚ))) := by
  have hplot : plot_investment_value R1 R2 R2 100 false = .ok FigC4 := by
    simp +decide [plot_investment_value, plotLoop, R1, R2, FigC4, List.lookup]
    norm_num
  exact ⟨hplot, List.Mem.head _, dollar_value_roundtrip R1 R2 R2 100 false FigC4 hplot⟩

/-- C5 counterexample: on `data5` ticker A lacks only `Adj Close` (a field
required by buy-and-hold) while B is complete; A is skipped by buy-and-hold
with a warning, yet the renderer then raises `KeyError`, so the run aborts
instead of completing for the remaining tickers with A merely excluded. -/
theorem missing_adjclose_aborts_plot :
    data5.col "Adj Close" "A" = none ∧
    data5.col "Open" "A" = some [1, 1] ∧ data5.col "Close" "A" = some [1, 1] ∧
    data5.col "Open" "B" = some [1, 1] ∧ data5.col "Close" "B" = some [1, 1] ∧
    data5.col "Adj Close" "B" = some [1, 1] ∧
    calculate_returns data5 "open_to_close" = .ok Roc5 ∧
    calculate_returns data5 "close_to_open" = .ok Rco5 ∧
    calculate_returns data5 "buy_and_hold" = .ok Rbh5 ∧
    plot_investment_value Roc5 Rco5 Rbh5 100 false = .error .keyError := by
  refine ⟨?_, ?_, ?_, ?_, ?_, ?_, ?_, ?_, ?_, ?_⟩
  · simp +decide [data5, PriceTable.col, List.find?]
  · simp +decide [data5, PriceTable.col, List.find?]
  · simp +decide [data5, PriceTable.col, List.find?]
  · simp +decide [data5, PriceTable.col, List.find?]
  · simp +decide [data5, PriceTable.col, List.find?]
  · simp +decide [data5, PriceTable.col, List.find?]
  · simp +decide [calculate_returns, calcLoop, dailyReturns, data5, PriceTable.col,
      List.find?, cumulativeReturns, cumprod, cumprodFrom, stratIndex, Roc5]
  · simp +decide [calculate_returns, calcLoop, dailyReturns, data5, PriceTable.col,
      List.find?, cumulativeReturns, cumprod, cumprodFrom, stratIndex, Rco5]
  · simp +decide [calculate_returns, calcLoop, dailyReturns, data5, PriceTable.col,
      List.find?, cumulativeReturns, cumprod, cumprodFrom, stratIndex, Rbh5]
  · simp +decide [plot_investment_value, plotLoop, Roc5, Rco5, Rbh5, List.lookup]

/-- Keys of the assembled strategy columns: a member names a ticker of the
table together with the series the strategy produced for it. -/
theorem mem_strategyCols (data : PriceTable) (st u : String) (s : List ℚ)
    (h : (u, s) ∈ strategyCols data st) :
    u ∈ data.tickers ∧ tickerSeries data st u = some s := by
  rw [strategyCols] at h
  rcases List.mem_filterMap.mp h with ⟨x, hx, hmap⟩
  rcases Option.map_eq_some'.mp hmap with ⟨v, hv, heq⟩
  injection heq with h1 h2
  subst h1
  subst h2
  exact ⟨hx, hv⟩

/-- When every open-to-close ticker can be looked up in the other two tables,
the renderer loop succeeds. -/
theorem plotLoop_ok_of_lookups (r_co r_bh : ReturnsTable) (init : ℚ) :
    ∀ (ps : List (String × List ℚ)) (acc : List (String × List ℚ) × List ℚ),
      (∀ p ∈ ps, ((r_co.cols.lookup p.1).isSome = true ∧
        (r_bh.cols.lookup p.1).isSome = true)) →
      ∃ out, plotLoop r_co r_bh init ps acc = .ok out := by
  intro ps
  induction ps with
  | nil => intro acc _; exact ⟨acc, rfl⟩
  | cons p ps ih =>
    intro acc h
    obtain ⟨h1, h2⟩ := h p (List.mem_cons_self p ps)
    obtain ⟨sco, hsco⟩ := Option.isSome_iff_exists.mp h1
    obtain ⟨sbh, hsbh⟩ := Option.isSome_iff_exists.mp h2
    rw [plotLoop, hsco, hsbh]
    exact ih _ (fun q hq => h q (List.mem_cons_of_mem p hq))

/-- Every trace the renderer loop emits is named after a ticker of the
open-to-close table. -/
theorem plotLoop_trace_names (r_co r_bh : ReturnsTable) (init : ℚ) :
    ∀ (ps : List (String × List ℚ)) (acc out : List (String × List ℚ) × List ℚ),
      plotLoop r_co r_bh init ps acc = .ok out →
      ∀ nv ∈ out.1, nv ∈ acc.1 ∨ ∃ p ∈ ps,
        nv.1 = p.1 ++ " - Apertura a Cierre" ∨ nv.1 = p.1 ++ " - Cierre a Apertura" ∨
        nv.1 = p.1 ++ " - Comprar y Mantener" := by
  intro ps
  induction ps with
  | nil =>
    intro acc out h nv hnv
    have heq : acc = out := by simpa [plotLoop] using h
    subst heq
    exact Or.inl hnv
  | cons p ps ih =>
    intro acc out h nv hnv
    cases hco : r_co.cols.lookup p.1 with
    | none => rw [plotLoop, hco] at h; simp at h
    | some sco =>
      cases hbh : r_bh.cols.lookup p.1 with
      | none => rw [plotLoop, hco, hbh] at h; simp at h
      | some sbh =>
        rw [plotLoop, hco, hbh] at h
        rcases ih _ out h nv hnv with hacc | ⟨q, hq, hname⟩
        · rcases List.mem_append.mp hacc with h1 | h2
          · exact Or.inl h1
          · right
            refine ⟨p, List.mem_cons_self p ps, ?_⟩
            simp only [List.mem_cons, List.not_mem_nil, or_false] at h2
            rcases h2 with rfl | rfl | rfl
            · exact Or.inl rfl
            · exact Or.inr (Or.inl rfl)
            · exact Or.inr (Or.inr rfl)
        · exact Or.inr ⟨q, List.mem_cons_of_mem p hq, hname⟩

/-- A ticker missing Open or Close contributes nothing to the open-to-close
strategy. -/
theorem tickerSeries_open_to_close_none (data : PriceTable) (t : String)
    (h : data.col "Open" t = none ∨ data.col "Close" t = none) :
    tickerSeries data "open_to_close" t = none := by
  rcases h with h | h
  · cases hc : data.col "Close" t <;>
      simp [tickerSeries, dailyReturns_open_to_close, h, hc, Except.toOption]
  · cases ho : data.col "Open" t <;>
      simp [tickerSeries, dailyReturns_open_to_close, h, ho, Except.toOption]

/-- A ticker missing Open or Close contributes nothing to the close-to-open
strategy. -/
theorem tickerSeries_close_to_open_none (data : PriceTable) (t : String)
    (h : data.col "Open" t = none ∨ data.col "Close" t = none) :
    tickerSeries data "close_to_open" t = none := by
  rcases h with h | h
  · cases hc : data.col "Close" t <;>
      simp [tickerSeries, dailyReturns_close_to_open, h, hc, Except.toOption]
  · cases ho : data.col "Open" t <;>
      simp [tickerSeries, dailyReturns_close_to_open, h, ho, Except.toOption]

/-- C5 amended: with all other tickers complete, a ticker lacking a required
field is skipped with a user-visible warning by each strategy that needs the
field and excluded from that strategy's series only.  First branch: when only
Adj Close is missing, the ticker stays in the open-to-close series, the
renderer raises `KeyError` whatever the close-to-open table holds, and the run
aborts.  Second branch: when Open or Close is missing, the ticker is out of
the open-to-close and close-to-open series with warnings (while still in the
buy-and-hold series whenever its Adj Close is present), the chart draws only
traces named after other tickers, and the run completes without error. -/
theorem missing_field_skip_amended (data : PriceTable) (t : String) (init : ℚ) (ls : Bool)
    (nd : data.tickers.Nodup) (ht : t ∈ data.tickers)
    (hcomplete : ∀ u ∈ data.tickers, u ≠ t →
      (data.col "Open" u).isSome = true ∧ (data.col "Close" u).isSome = true ∧
      (data.col "Adj Close" u).isSome = true) :
    (∀ o c : List ℚ, data.col "Adj Close" t = none → data.col "Open" t = some o →
      data.col "Close" t = some c →
      ∃ rb ro : ReturnsTable,
        calculate_returns data "buy_and_hold" = .ok rb ∧ t ∈ rb.warnings ∧
        rb.cols.lookup t = none ∧
        calculate_returns data "open_to_close" = .ok ro ∧
        (ro.cols.lookup t).isSome = true ∧
        ∀ rc : ReturnsTable, plot_investment_value ro rc rb init ls = .error .keyError) ∧
    ((data.col "Open" t = none ∨ data.col "Close" t = none) → data.dates ≠ [] →
      (∃ u, u ∈ data.tickers ∧ u ≠ t) →
      ∃ ro rc rb : ReturnsTable, ∃ fig : Figure,
        calculate_returns data "open_to_close" = .ok ro ∧ t ∈ ro.warnings ∧
        ro.cols.lookup t = none ∧
        calculate_returns data "close_to_open" = .ok rc ∧ t ∈ rc.warnings ∧
        rc.cols.lookup t = none ∧
        calculate_returns data "buy_and_hold" = .ok rb ∧
        (∀ a : List ℚ, data.col "Adj Close" t = some a →
          (rb.cols.lookup t).isSome = true) ∧
        plot_investment_value ro rc rb init ls = .ok fig ∧
        (∀ nv ∈ fig.traces, ∃ u, u ∈ data.tickers ∧ u ≠ t ∧
          (nv.1 = u ++ " - Apertura a Cierre" ∨ nv.1 = u ++ " - Cierre a Apertura" ∨
           nv.1 = u ++ " - Comprar y Mantener"))) := by
  have hvbh : ("buy_and_hold" : String) = "open_to_close" ∨
      ("buy_and_hold" : String) = "close_to_open" ∨
      ("buy_and_hold" : String) = "buy_and_hold" := Or.inr (Or.inr rfl)
  have hvoc : ("open_to_close" : String) = "open_to_close" ∨
      ("open_to_close" : String) = "close_to_open" ∨
      ("open_to_close" : String) = "buy_and_hold" := Or.inl rfl
  have hvco : ("close_to_open" : String) = "open_to_close" ∨
      ("close_to_open" : String) = "close_to_open" ∨
      ("close_to_open" : String) = "buy_and_hold" := Or.inr (Or.inl rfl)
  constructor
  · intro o c hna ho hc
    have hsert : tickerSeries data "buy_and_hold" t = none := by
      simp [tickerSeries, dailyReturns_buy_and_hold, hna, Except.toOption]
    have hsero : tickerSeries data "open_to_close" t =
        some (cumulativeReturns (List.zipWith (fun x y => x / y - 1) c o)) := by
      simp [tickerSeries, dailyReturns_open_to_close, hc, ho, Except.toOption]
    have hlookb : ((strategyTable data "buy_and_hold").cols).lookup t = none := by
      show (strategyCols data "buy_and_hold").lookup t = none
      rw [strategyCols, lookup_filterMap_of_mem _ t data.tickers nd ht, hsert]
    have hlooko : ((strategyTable data "open_to_close").cols).lookup t =
        some (cumulativeReturns (List.zipWith (fun x y => x / y - 1) c o)) := by
      show (strategyCols data "open_to_close").lookup t = _
      rw [strategyCols, lookup_filterMap_of_mem _ t data.tickers nd ht, hsero]
    refine ⟨_, _, calculate_returns_ok data "buy_and_hold" hvbh, ?_, hlookb,
      calculate_returns_ok data "open_to_close" hvoc, ?_, ?_⟩
    · show t ∈ strategyWarnings data "buy_and_hold"
      rw [strategyWarnings, List.mem_filter]
      exact ⟨ht, by simp [hsert]⟩
    · simp [hlooko]
    · intro rc
      have hmem : (t, cumulativeReturns (List.zipWith (fun x y => x / y - 1) c o)) ∈
          (strategyTable data "open_to_close").cols :=
        mem_of_lookup_eq_some _ _ _ hlooko
      have hkey := plotLoop_keyError rc (strategyTable data "buy_and_hold") init
        ((strategyTable data "open_to_close").cols) ([], []) ⟨_, hmem, Or.inr hlookb⟩
      simp only [plot_investment_value]
      rw [hkey]
  · intro hmiss hdates hex
    obtain ⟨u0, hu0mem, hu0ne⟩ := hex
    have hsoc : tickerSeries data "open_to_close" t = none :=
      tickerSeries_open_to_close_none data t hmiss
    have hsco : tickerSeries data "close_to_open" t = none :=
      tickerSeries_close_to_open_none data t hmiss
    obtain ⟨hu0o, hu0c, _⟩ := hcomplete u0 hu0mem hu0ne
    obtain ⟨o0, ho0⟩ := Option.isSome_iff_exists.mp hu0o
    obtain ⟨c0, hc0⟩ := Option.isSome_iff_exists.mp hu0c
    have hu0ser : tickerSeries data "open_to_close" u0 =
        some (cumulativeReturns (List.zipWith (fun x y => x / y - 1) c0 o0)) := by
      simp [tickerSeries, dailyReturns_open_to_close, hc0, ho0, Except.toOption]
    have hlooku0 : (strategyCols data "open_to_close").lookup u0 =
        some (cumulativeReturns (List.zipWith (fun x y => x / y - 1) c0 o0)) := by
      rw [strategyCols, lookup_filterMap_of_mem _ u0 data.tickers nd hu0mem, hu0ser]
    have hneoc : (strategyCols data "open_to_close").isEmpty = false :=
      isEmpty_false_of_lookup _ u0 _ hlooku0
    have hall : ∀ p ∈ (strategyTable data "open_to_close").cols,
        (((strategyTable data "close_to_open").cols.lookup p.1).isSome = true ∧
         ((strategyTable data "buy_and_hold").cols.lookup p.1).isSome = true) := by
      rintro ⟨u, s⟩ hp
      obtain ⟨humem, hus⟩ := mem_strategyCols data "open_to_close" u s hp
      have hune : u ≠ t := by
        rintro rfl
        rw [hsoc] at hus
        exact Option.noConfusion hus
      obtain ⟨huo, huc, hua⟩ := hcomplete u humem hune
      obtain ⟨ou, hou⟩ := Option.isSome_iff_exists.mp huo
      obtain ⟨cu, hcu⟩ := Option.isSome_iff_exists.mp huc
      obtain ⟨au, hau⟩ := Option.isSome_iff_exists.mp hua
      constructor
      · show ((strategyCols data "close_to_open").lookup u).isSome = true
        rw [strategyCols, lookup_filterMap_of_mem _ u data.tickers nd humem]
        simp [tickerSeries, dailyReturns_close_to_open, hou, hcu, Except.toOption]
      · show ((strategyCols data "buy_and_hold").lookup u).isSome = true
        rw [strategyCols, lookup_filterMap_of_mem _ u data.tickers nd humem]
        simp [tickerSeries, dailyReturns_buy_and_hold, hau, Except.toOption]
    obtain ⟨⟨traces, vals⟩, hout⟩ := plotLoop_ok_of_lookups
      (strategyTable data "close_to_open") (strategyTable data "buy_and_hold") init
      ((strategyTable data "open_to_close").cols) ([], []) hall
    have hidx : (strategyTable data "open_to_close").index = data.dates := by
      show (if (strategyCols data "open_to_close").isEmpty then []
        else stratIndex data.dates "open_to_close") = data.dates
      rw [hneoc]
      simp [stratIndex]
    obtain ⟨d, ds, hdcons⟩ : ∃ d ds, data.dates = d :: ds := by
      cases hdd : data.dates with
      | nil => exact absurd hdd hdates
      | cons d ds => exact ⟨d, ds, rfl⟩
    have hh : (strategyTable data "open_to_close").index.head? = some d := by
      rw [hidx, hdcons]
      rfl
    obtain ⟨xn, hxn⟩ := Option.isSome_iff_exists.mp
      (List.getLast?_isSome.mpr (hdcons ▸ List.cons_ne_nil d ds) :
        ((d : ℕ) :: ds).getLast?.isSome = true)
    have hg : (strategyTable data "open_to_close").index.getLast? = some xn := by
      rw [hidx, hdcons]
      exact hxn
    refine ⟨_, _, _,
      { traces := traces, refLine := ((d, xn), init), logScale := ls
      , yLogRangeArgs := if ls then some (yRangeArgs vals init) else none },
      calculate_returns_ok data "open_to_close" hvoc, ?_, ?_,
      calculate_returns_ok data "close_to_open" hvco, ?_, ?_,
      calculate_returns_ok data "buy_and_hold" hvbh, ?_, ?_, ?_⟩
    · show t ∈ strategyWarnings data "open_to_close"
      rw [strategyWarnings, List.mem_filter]
      exact ⟨ht, by simp [hsoc]⟩
    · show (strategyCols data "open_to_close").lookup t = none
      rw [strategyCols, lookup_filterMap_of_mem _ t data.tickers nd ht, hsoc]
    · show t ∈ strategyWarnings data "close_to_open"
      rw [strategyWarnings, List.mem_filter]
      exact ⟨ht, by simp [hsco]⟩
    · show (strategyCols data "close_to_open").lookup t = none
      rw [strategyCols, lookup_filterMap_of_mem _ t data.tickers nd ht, hsco]
    · intro a ha
      show ((strategyCols data "buy_and_hold").lookup t).isSome = true
      rw [strategyCols, lookup_filterMap_of_mem _ t data.tickers nd ht]
      simp [tickerSeries, dailyReturns_buy_and_hold, ha, Except.toOption]
    · simp only [plot_investment_value]
      rw [hout, hh, hg]
    · intro nv hnv
      rcases plotLoop_trace_names (strategyTable data "close_to_open")
          (strategyTable data "buy_and_hold") init
          ((strategyTable data "open_to_close").cols) ([], []) (traces, vals)
          hout nv hnv with h0 | ⟨p, hp, hname⟩
      · simp at h0
      · obtain ⟨humem, hus⟩ := mem_strategyCols data "open_to_close" p.1 p.2
          (by simpa using hp)
        refine ⟨p.1, humem, ?_, hname⟩
        rintro rfl
        rw [hsoc] at hus
        exact Option.noConfusion hus

/-- Witness for the amended C5: on `data5` ticker A lacks only Adj Close and
the run aborts with a renderer `KeyError`; on `data5b` ticker A lacks Open, is
excluded from the open-to-close and close-to-open series with warnings, and
the run completes with a chart drawing only ticker B. -/
theorem missing_field_skip_amended_witness :
    (data5.tickers.Nodup ∧ ("A" : String) ∈ data5.tickers ∧
      (∀ u ∈ data5.tickers, u ≠ "A" →
        (data5.col "Open" u).isSome = true ∧ (data5.col "Close" u).isSome = true ∧
        (data5.col "Adj Close" u).isSome = true) ∧
      data5.col "Adj Close" "A" = none ∧
      data5.col "Open" "A" = some [1, 1] ∧ data5.col "Close" "A" = some [1, 1]) ∧
    (∃ rb ro : ReturnsTable,
      calculate_returns data5 "buy_and_hold" = .ok rb ∧ ("A" : String) ∈ rb.warnings ∧
      rb.cols.lookup "A" = none ∧
      calculate_returns data5 "open_to_close" = .ok ro ∧
      (ro.cols.lookup "A").isSome = true ∧
      ∀ rc : ReturnsTable, plot_investment_value ro rc rb 100 false = .error .keyError) ∧
    (data5b.tickers.Nodup ∧ ("A" : String) ∈ data5b.tickers ∧
      (∀ u ∈ data5b.tickers, u ≠ "A" →
        (data5b.col "Open" u).isSome = true ∧ (data5b.col "Close" u).isSome = true ∧
        (data5b.col "Adj Close" u).isSome = true) ∧
      data5b.col "Open" "A" = none ∧ data5b.dates ≠ [] ∧
      ("B" : String) ∈ data5b.tickers ∧ ("B" : String) ≠ "A") ∧
    (∃ ro rc rb : ReturnsTable, ∃ fig : Figure,
      calculate_returns data5b "open_to_close" = .ok ro ∧ ("A" : String) ∈ ro.warnings ∧
      ro.cols.lookup "A" = none ∧
      calculate_returns data5b "close_to_open" = .ok rc ∧ ("A" : String) ∈ rc.warnings ∧
      rc.cols.lookup "A" = none ∧
      calculate_returns data5b "buy_and_hold" = .ok rb ∧
      (∀ a : List ℚ, data5b.col "Adj Close" "A" = some a →
        (rb.cols.lookup "A").isSome = true) ∧
      plot_investment_value ro rc rb 100 false = .ok fig ∧
      (∀ nv ∈ fig.traces, ∃ u, u ∈ data5b.tickers ∧ u ≠ "A" ∧
        (nv.1 = u ++ " - Apertura a Cierre" ∨ nv.1 = u ++ " - Cierre a Apertura" ∨
         nv.1 = u ++ " - Comprar y Mantener"))) := by
  have h1 : data5.tickers.Nodup := by decide
  have h2 : ("A" : String) ∈ data5.tickers := by decide
  have h3 : ∀ u ∈ data5.tickers, u ≠ "A" →
      (data5.col "Open" u).isSome = true ∧ (data5.col "Close" u).isSome = true ∧
      (data5.col "Adj Close" u).isSome = true := by decide
  have h4 : data5.col "Adj Close" "A" = none := by
    simp +decide [data5, PriceTable.col, List.find?]
  have h5 : data5.col "Open" "A" = some [1, 1] := by
    simp +decide [data5, PriceTable.col, List.find?]
  have h6 : data5.col "Close" "A" = some [1, 1] := by
    simp +decide [data5, PriceTable.col, List.find?]
  have g1 : data5b.tickers.Nodup := by decide
  have g2 : ("A" : String) ∈ data5b.tickers := by decide
  have g3 : ∀ u ∈ data5b.tickers, u ≠ "A" →
      (data5b.col "Open" u).isSome = true ∧ (data5b.col "Close" u).isSome = true ∧
      (data5b.col "Adj Close" u).isSome = true := by decide
  have g4 : data5b.col "Open" "A" = none := by
    simp +decide [data5b, PriceTable.col, List.find?]
  have g5 : data5b.dates ≠ [] := by decide
  have g6 : ("B" : String) ∈ data5b.tickers := by decide
  have g7 : ("B" : String) ≠ "A" := by decide
  exact ⟨⟨h1, h2, h3, h4, h5, h6⟩,
    (missing_field_skip_amended data5 "A" 100 false h1 h2 h3).1 [1, 1] [1, 1] h4 h5 h6,
    ⟨g1, g2, g3, g4, g5, g6, g7⟩,
    (missing_field_skip_amended data5b "A" 100 false g1 g2 g3).2
      (Or.inl g4) g5 ⟨"B", g6, g7⟩⟩

/-- C7: an empty price table yields an empty returns table for each of the
three strategies, but the renderer, handed those empty collections, raises
`IndexError` from `returns_open_to_close.index[0]` instead of showing an empty
chart. -/
theorem empty_table_renderer_throws :
    calculate_returns emptyTable "open_to_close" = .ok emptyReturns ∧
    calculate_returns emptyTable "close_to_open" = .ok emptyReturns ∧
    calculate_returns emptyTable "buy_and_hold" = .ok emptyReturns ∧
    plot_investment_value emptyReturns emptyReturns emptyReturns 100 false =
      .error .indexError ∧
    plot_investment_value emptyReturns emptyReturns emptyReturns 100 true =
      .error .indexError := by
  refine ⟨?_, ?_, ?_, ?_, ?_⟩ <;>
    simp +decide [calculate_returns, calcLoop, emptyTable, emptyReturns,
      plot_investment_value, plotLoop]

/-- C9 amended: with log scale on, the rendered y-axis range is
[log10(min_val - padding), log10(max_val + padding)] over the drawn values
plus the reference-line level, except that when min_val - padding is not
positive the lower argument is floored at 0.1. -/
theorem log_range_amended (r_oc r_co r_bh : ReturnsTable) (init : ℚ) (fig : Figure)
    (h : plot_investment_value r_oc r_co r_bh init true = .ok fig) :
    yLogRange fig =
      some (Real.logb 10
              ((if 0 < minPositive ((fig.traces.map (fun q => q.2)).flatten ++ [init]) -
                    (1/10 : ℚ) * (listMax ((fig.traces.map (fun q => q.2)).flatten ++ [init]) -
                      minPositive ((fig.traces.map (fun q => q.2)).flatten ++ [init]))
                then minPositive ((fig.traces.map (fun q => q.2)).flatten ++ [init]) -
                    (1/10 : ℚ) * (listMax ((fig.traces.map (fun q => q.2)).flatten ++ [init]) -
                      minPositive ((fig.traces.map (fun q => q.2)).flatten ++ [init]))
                else (1/10 : ℚ)) : ℝ),
            Real.logb 10
              ((listMax ((fig.traces.map (fun q => q.2)).flatten ++ [init]) +
                  (1/10 : ℚ) * (listMax ((fig.traces.map (fun q => q.2)).flatten ++ [init]) -
                    minPositive ((fig.traces.map (fun q => q.2)).flatten ++ [init])) : ℚ) : ℝ)) := by
  unfold plot_investment_value at h
  cases hl : plotLoop r_co r_bh init r_oc.cols ([], []) with
  | error e => rw [hl] at h; simp at h
  | ok tv =>
    obtain ⟨traces, vals⟩ := tv
    rw [hl] at h
    cases hh : r_oc.index.head? with
    | none => cases hg : r_oc.index.getLast? <;> rw [hh, hg] at h <;> simp at h
    | some x0 =>
      cases hg : r_oc.index.getLast? with
      | none => rw [hh, hg] at h; simp at h
      | some xn =>
        rw [hh, hg] at h
        have hfig := Except.ok.inj h
        have htr : fig.traces = traces := by rw [← hfig]
        have hargs : fig.yLogRangeArgs = some (yRangeArgs vals init) := by
          rw [← hfig]
          simp
        have hvals : vals = (traces.map (fun q => q.2)).flatten :=
          plotLoop_values r_co r_bh init r_oc.cols ([], []) (traces, vals) hl (by simp)
        rw [yLogRange, hargs, htr, ← hvals]
        simp only [yRangeArgs, Option.map_some]
        split <;> (simp only [Option.map]; try push_cast; try ring_nf)

/-- Witness for the amended C9: drawn values [50, 100, 150] with initial
investment 100 give min_val = 50, max_val = 150, padding = 10, and the log
range [log10 40, log10 160]. -/
theorem log_range_amended_witness :
    plot_investment_value Roc9b R2 R2 100 true = .ok Fig9b ∧
    yLogRange Fig9b = some (Real.logb 10 (40 : ℝ), Real.logb 10 (160 : ℝ)) := by
  have hplot : plot_investment_value Roc9b R2 R2 100 true = .ok Fig9b := by
    simp +decide [plot_investment_value, plotLoop, Roc9b, R2, Fig9b, List.lookup,
      yRangeArgs, minPositive, listMax, List.filter]
    norm_num [List.filter]
  have happ := log_range_amended Roc9b R2 R2 100 Fig9b hplot
  norm_num [Fig9b, minPositive, listMax, List.filter] at happ
  exact ⟨hplot, happ⟩

/-- C9 counterexample: for drawn dollar values [1, 1, 1] with initial
investment 100 we get min_val = 1, max_val = 100, padding = 9.9, and
min_val - padding = -8.9 is not positive, so the code floors the lower log
argument at 0.1; the claimed unconditional range [log10(min_val - padding),
log10(max_val + padding)] is not the rendered range. -/
theorem log_range_floor_counterexample :
    plot_investment_value Roc9 Roc9 Roc9 100 true = .ok Fig9 ∧
    minPositive ((Fig9.traces.map (fun q => q.2)).flatten ++ [100]) = 1 ∧
    listMax ((Fig9.traces.map (fun q => q.2)).flatten ++ [100]) = 100 ∧
    Fig9.yLogRangeArgs = some (1/10, 1099/10) ∧
    yLogRange Fig9 ≠
      some (Real.logb 10 ((1 - (1/10) * (100 - 1) : ℚ) : ℝ),
            Real.logb 10 ((100 + (1/10) * (100 - 1) : ℚ) : ℝ)) := by
  refine ⟨?_, ?_, ?_, ?_, ?_⟩
  · simp +decide [plot_investment_value, plotLoop, Roc9, Fig9, List.lookup, yRangeArgs,
      minPositive, listMax, List.filter]
    norm_num [List.filter]
  · norm_num [Fig9, minPositive, List.filter]
  · norm_num [Fig9, listMax]
  · rfl
  · intro heq
    rw [yLogRange] at heq
    have hfst : Real.logb 10 (((1:ℚ)/10 : ℚ) : ℝ) =
        Real.logb 10 ((1 - (1/10) * (100 - 1) : ℚ) : ℝ) := by
      have := Option.some.inj heq
      exact congrArg Prod.fst this
    have hc1 : (((1:ℚ)/10 : ℚ) : ℝ) = (1/10 : ℝ) := by push_cast; ring
    have hc2 : ((1 - (1/10) * (100 - 1) : ℚ) : ℝ) = -(89/10 : ℝ) := by push_cast; ring
    rw [hc1, hc2, Real.logb_neg_eq_logb] at hfst
    have hlt : Real.logb 10 (1/10 : ℝ) < 0 :=
      Real.logb_neg (by norm_num) (by norm_num) (by norm_num)
    have hgt : 0 < Real.logb 10 (89/10 : ℝ) :=
      Real.logb_pos (by norm_num) (by norm_num)
    linarith [hfst ▸ hlt]

/-- Splitting on commas never yields an empty list of pieces. -/
theorem splitComma_ne_nil (cs : List Char) : splitComma cs ≠ [] := by
  induction cs with
  | nil => simp [splitComma]
  | cons c cs ih =>
    simp only [splitComma]
    cases h : splitComma cs with
    | nil => simp
    | cons w ws =>
      by_cases hc : c = ','
      · simp [hc]
      · simp [hc]

/-- C10: the parsed ticker list is never empty, so the "enter at least one
symbol" branch of `main` is unreachable; an input of whitespace and commas
parses to empty-string symbols and proceeds. -/
theorem ticker_parse_never_empty :
    (∀ s : List Char, mainRejects s = false) ∧
    parseTickers [' ', ',', ' '] = [[], []] := by
  constructor
  · intro s
    rw [mainRejects, parseTickers]
    cases h : splitComma (s.map Char.toUpper) with
    | nil => exact absurd h (splitComma_ne_nil _)
    | cons w ws => simp
  · decide
